import Mathlib

/-!
Shallow embedding of the bmDub contact-form API (src/server.js, together
with the Brevo HTTP-API variant in src/unnamed/part_001 for backend
selection and address extraction).  Strings are modelled as Lean `String`
(lists of characters); JavaScript `String.prototype.trim` and the `\s`
character class are modelled by `jsTrim` / `jsWs`.  All inputs relevant to
the claims are ASCII, where JavaScript UTF-16 `.length` agrees with
`String.length`.
-/

/-- The JavaScript `\s` whitespace class (WhiteSpace and LineTerminator),
used both by `String.prototype.trim` and by the `isEmail` regular
expression of src/server.js. -/
def jsWs (c : Char) : Bool :=
  c == ' ' || c == '\t' || c == '\n' || c == '\r' ||
  c.toNat == 11 || c.toNat == 12 || c.toNat == 160 || c.toNat == 0x1680 ||
  (0x2000 ≤ c.toNat && c.toNat ≤ 0x200a) ||
  c.toNat == 0x2028 || c.toNat == 0x2029 || c.toNat == 0x202f ||
  c.toNat == 0x205f || c.toNat == 0x3000 || c.toNat == 0xfeff

/-- JavaScript-style trim over a character list: remove the maximal
whitespace prefix and suffix. -/
def trimChars (cs : List Char) : List Char := (cs.dropWhile jsWs).rdropWhile jsWs

/-- `String.prototype.trim`. -/
def jsTrim (s : String) : String := ⟨trimChars s.data⟩

/-- `sanitize` (src/server.js lines 65-67): `String(s || '').trim()`.
A missing field is modelled as `none` and coerces to the empty string. -/
def sanitize (v : Option String) : String := jsTrim (v.getD "")

/-- The character class `[^\s@]` of the email regular expression. -/
def okCh (c : Char) : Bool := !jsWs c && c != '@'

/-- Boolean test `c ≠ '@'`, used to locate the first `@` of the subject
string (the regex atom `[^\s@]+` before `@` cannot cross an `@`). -/
def neAt (c : Char) : Bool := c != '@'

/-- A dot at an interior position of `b` (neither the first nor the last
character): this is what `[^\s@]+\.[^\s@]+` requires of the domain part. -/
def interiorDot (b : List Char) : Bool := decide ('.' ∈ b.tail.dropLast)

/-- `isEmail` (src/server.js lines 62-64):
`/^[^\s@]+@[^\s@]+\.[^\s@]+$/.test(v || '')`.  The anchored match
decomposes the string as `A@B` where `A` is the maximal `@`-free prefix;
`A` and `B` must be non-empty and consist of `[^\s@]` characters, and `B`
must have a dot at an interior position. -/
def isEmail (v : String) : Bool :=
  match v.data.dropWhile neAt with
  | [] => false
  | _ :: b =>
      !(v.data.takeWhile neAt).isEmpty && (v.data.takeWhile neAt).all okCh &&
      !b.isEmpty && b.all okCh && interiorDot b

/-- Scan for the leftmost match of `/<([^>]+)>/` (src/unnamed/part_001
line 81) and return the capture group: at each candidate start `<`, the
greedy `[^>]+` takes the run of non-`>` characters after it, and the match
succeeds when that run is non-empty and followed by a `>`. -/
def extractScan : List Char → Option (List Char)
  | [] => none
  | c :: rest =>
      if c = '<' ∧ '>' ∈ rest ∧ rest.takeWhile (fun d => d != '>') ≠ []
      then some (rest.takeWhile (fun d => d != '>'))
      else extractScan rest

/-- `extractEmail` (src/unnamed/part_001 lines 80-83): the bracketed
address of a `"Display Name <addr>"` string, or the string itself when the
pattern does not occur. -/
def extractEmail (val : String) : String :=
  match extractScan val.data with
  | some cap => ⟨cap⟩
  | none => val

/-- Raw JSON body of a POST /contact request; absent fields are `none`. -/
structure ContactBody where
  name : Option String := none
  email : Option String := none
  subject : Option String := none
  message : Option String := none
  source : Option String := none
  website : Option String := none
deriving DecidableEq

/-- Address configuration (TO_EMAIL / FROM_EMAIL environment variables). -/
structure Config where
  toEmail : String
  fromAddr : String
deriving DecidableEq

/-- Defaults of src/server.js lines 18-19. -/
def defaultConfig : Config :=
  { toEmail := "cmwingo@email.sc.edu"
    fromAddr := "bmDub Contact <no-reply@bmdub.app>" }

/-- The argument record of the mail send (src/server.js lines 122-128). -/
structure MailPayload where
  toAddr : String
  fromAddr : String
  replyTo : String
  subject : String
  text : String
deriving DecidableEq

/-- Validation error messages of src/server.js lines 100-107. -/
def nameErr : String := "Name is required and must be at least 2 characters."

def emailErr : String := "Invalid email address."

def subjectErr : String := "Subject is required and must be at least 2 characters."

def messageErr : String := "Message is required and must be at least 10 characters."

/-- The template literal of src/server.js lines 109-118 (backquote string
starting with a newline, then `.trim()`), with `${source || 'form'}`. -/
def buildText (name email subject source message : String) : String :=
  jsTrim ("\nNew contact form submission\n\nName: " ++ name ++
    "\nEmail: " ++ email ++ "\nSubject: " ++ subject ++
    "\nSource: " ++ (if source = "" then "form" else source) ++
    "\n\nMessage:\n" ++ message)

/-- The object passed to `transporter.sendMail` (src/server.js 122-128). -/
def mkPayload (cfg : Config) (name email subject source message : String) :
    MailPayload :=
  { toAddr := cfg.toEmail
    fromAddr := cfg.fromAddr
    replyTo := name ++ " <" ++ email ++ ">"
    subject := "[bmDub Contact] " ++ subject
    text := buildText name email subject source message }

/-- Observable HTTP responses of the service. -/
inductive AppResponse where
  /-- 200 `{ok:true, service:'bmDub API', time:...}` for GET / -/
  | home
  /-- 200 `{ok:true}` for GET /health -/
  | health
  /-- response of GET /debug/verify (depends on the mail backend) -/
  | debugVerify
  /-- 200 `{ok:true, skip:true}` (honeypot short-circuit) -/
  | okSkip
  /-- 200 `{ok:true, message:'Email sent successfully.'}` -/
  | okSent
  /-- 400 `{error: msg}` (validation failure) -/
  | badRequest (msg : String)
  /-- 500 `{error: msg}` (mail delivery failure, caught in the handler) -/
  | mailError (msg : String)
  /-- 429 with RateLimit-Limit / -Remaining / -Reset metadata -/
  | tooMany (limit remaining reset : Nat)
  /-- 500 `{error:'Internal server error.'}` from the final error handler
  (src/server.js lines 137-140), e.g. after a CORS rejection -/
  | internalError
  /-- Express default 404 for unknown paths -/
  | notFound
deriving DecidableEq

/-- HTTP status code of each response. -/
def statusOf : AppResponse → Nat
  | .home | .health | .debugVerify | .okSkip | .okSent => 200
  | .badRequest _ => 400
  | .mailError _ => 500
  | .tooMany _ _ _ => 429
  | .internalError => 500
  | .notFound => 404

/-- JSON body of each response (the rate-limit and 404 bodies are produced
by library code and are not modelled). -/
def jsonOf : AppResponse → String
  | .home => "\x7b\"ok\":true,\"service\":\"bmDub API\"\x7d"
  | .health => "\x7b\"ok\":true\x7d"
  | .debugVerify => ""
  | .okSkip => "\x7b\"ok\":true,\"skip\":true\x7d"
  | .okSent => "\x7b\"ok\":true,\"message\":\"Email sent successfully.\"\x7d"
  | .badRequest msg => "\x7b\"error\":\"" ++ msg ++ "\"\x7d"
  | .mailError msg => "\x7b\"error\":\"" ++ msg ++ "\"\x7d"
  | .tooMany _ _ _ => ""
  | .internalError => "\x7b\"error\":\"Internal server error.\"\x7d"
  | .notFound => ""

/-- The POST /contact handler body (src/server.js lines 87-134).  `send`
models `transporter.sendMail`: `.ok` for successful delivery, `.error e`
for a rejected send, in which case the catch block responds 500 with
`String(err?.message || err)`.  The returned list collects every attempted
mail dispatch of the request. -/
def contactHandler (cfg : Config) (body : ContactBody)
    (send : MailPayload → Except String Unit) :
    AppResponse × List MailPayload :=
  let name := sanitize body.name
  let email := sanitize body.email
  let subject := sanitize body.subject
  let message := sanitize body.message
  let source := sanitize body.source
  let honeypot := sanitize body.website
  if honeypot ≠ "" then (.okSkip, [])
  else if name = "" ∨ name.length < 2 then (.badRequest nameErr, [])
  else if ¬ isEmail email then (.badRequest emailErr, [])
  else if subject = "" ∨ subject.length < 2 then (.badRequest subjectErr, [])
  else if message = "" ∨ message.length < 10 then (.badRequest messageErr, [])
  else
    let payload := mkPayload cfg name email subject source message
    match send payload with
    | .ok _ => (.okSent, [payload])
    | .error e => (.mailError e, [payload])

/-- JavaScript `split(',')`: cut the character list at every comma; the
empty string yields the single group `[""]`. -/
def splitComma : List Char → List (List Char)
  | [] => [[]]
  | c :: rest =>
      match splitComma rest with
      | [] => [[]]
      | g :: gs => if c = ',' then [] :: g :: gs else (c :: g) :: gs

/-- CORS origin parsing (src/server.js lines 29-33):
`split(',').map(s => s.trim()).filter(Boolean)`. -/
def parseOrigins (s : String) : List String :=
  ((splitComma s.data).map (fun g => jsTrim ⟨g⟩)).filter (fun o => o ≠ "")

/-- The default CORS_ORIGINS value of src/server.js lines 29-30. -/
def defaultCorsOrigins : String :=
  "https://cwingo.github.io,https://Cwingo.github.io,https://cwingo242.github.io,http://localhost:5173,http://localhost:5174"

/-- The cors `origin` callback (src/server.js lines 36-39): allow when the
request carries no Origin header, or when the Origin is literally a member
of the allow-list. -/
def corsAllows (allowList : List String) (origin : Option String) : Bool :=
  match origin with
  | none => true
  | some o => decide (o ∈ allowList)

/-- Per-address window entry of the rate limiter store. -/
structure Entry where
  start : Nat
  count : Nat
deriving DecidableEq

/-- The rate limiter's in-memory store: an association list from
originating address to its current window entry. -/
def LimiterState := List (String × Entry)

/-- Look up the window entry of an address. -/
def lookupEntry : LimiterState → String → Option Entry
  | [], _ => none
  | (k, v) :: rest, a => if k = a then some v else lookupEntry rest a

/-- Replace (or insert) the window entry of an address. -/
def setEntry : LimiterState → String → Entry → LimiterState
  | [], a, e => [(a, e)]
  | (k, v) :: rest, a, e =>
      if k = a then (a, e) :: rest else (k, v) :: setEntry rest a e

/-- Decision of one rate-limiter hit. -/
inductive LimitDecision where
  | allow
  | deny (limit remaining reset : Nat)
deriving DecidableEq

/-- Modelled from the spec: the fixed-window rate limiter behaviour of the
express-rate-limit middleware (the library itself is not part of this
repository).  "Fixed window: 60 seconds; fixed cap: 5 requests per
originating address per window.  Exceeding the cap yields a standard
rate-limit response (too-many-requests) carrying limit/remaining/reset
metadata"; the window and cap constants (`windowMs: 60_000, max: 5`) and
the `/contact` mount come from src/server.js lines 45-51.  A hit at time
`t` opens a fresh window when none is active; within an active window the
first `cap` hits are allowed and later ones denied. -/
def limiterHit (windowMs cap : Nat) (st : LimiterState) (addr : String)
    (t : Nat) : LimitDecision × LimiterState :=
  let e := match lookupEntry st addr with
    | some e => if t < e.start + windowMs then e else ⟨t, 0⟩
    | none => ⟨t, 0⟩
  if e.count < cap then
    (.allow, setEntry st addr ⟨e.start, e.count + 1⟩)
  else
    (.deny cap 0 (e.start + windowMs), setEntry st addr e)

/-- An inbound HTTP request, with the fields the middleware stack reads. -/
structure Request where
  origin : Option String := none
  path : String
  addr : String := ""
  time : Nat := 0
  body : ContactBody := {}

/-- The application's middleware-and-routes pipeline (src/server.js): the
CORS gate runs first; a rejected origin propagates the `Error('Not allowed
by CORS')` to the final error handler (lines 137-140) without reaching any
route; the rate limiter is mounted on `/contact` only (line 51); then the
routes of lines 70-134 are dispatched by path. -/
def handleRequest (cfg : Config) (allowList : List String)
    (send : MailPayload → Except String Unit) (st : LimiterState)
    (req : Request) : AppResponse × LimiterState × List MailPayload :=
  if corsAllows allowList req.origin then
    if req.path = "/contact" then
      match limiterHit 60000 5 st req.addr req.time with
      | (.deny l r rst, st') => (.tooMany l r rst, st', [])
      | (.allow, st') =>
          let res := contactHandler cfg req.body send
          (res.1, st', res.2)
    else if req.path = "/" then (.home, st, [])
    else if req.path = "/health" then (.health, st, [])
    else if req.path = "/debug/verify" then (.debugVerify, st, [])
    else (.notFound, st, [])
  else (.internalError, st, [])

/-- Run a sequence of requests, threading the limiter state. -/
def runRequests (cfg : Config) (allowList : List String)
    (send : MailPayload → Except String Unit) :
    LimiterState → List Request → List AppResponse × LimiterState
  | st, [] => ([], st)
  | st, r :: rs =>
      let out := handleRequest cfg allowList send st r
      let rec2 := runRequests cfg allowList send out.2.1 rs
      (out.1 :: rec2.1, rec2.2)

/-- Mail-relevant environment variables (src/unnamed/part_001 lines 12-26);
`none` models an unset variable. -/
structure Env where
  brevoApiKey : Option String := none
  smtpHost : Option String := none
  smtpUser : Option String := none
  smtpPass : Option String := none
deriving DecidableEq

/-- JavaScript truthiness of an environment string: set and non-empty. -/
def truthy : Option String → Bool
  | none => false
  | some s => s ≠ ""

/-- The two mail backends. -/
inductive Backend where
  | brevoApi
  | smtp
deriving DecidableEq

/-- Outcome of startup: either `process.exit(code)` before serving any
traffic, or a running server using one backend. -/
inductive StartupResult where
  | exited (code : Nat)
  | started (backend : Backend)
deriving DecidableEq

/-- Backend selection at startup (src/unnamed/part_001 lines 54-75 and
119-121, 179-189): a truthy BREVO_API_KEY selects the Brevo HTTP API;
otherwise SMTP is used, and if any of SMTP_HOST / SMTP_USER / SMTP_PASS is
falsy the process exits with code 1. -/
def startup (e : Env) : StartupResult :=
  if truthy e.brevoApiKey then .started .brevoApi
  else if ¬ truthy e.smtpHost ∨ ¬ truthy e.smtpUser ∨ ¬ truthy e.smtpPass then
    .exited 1
  else .started .smtp

/-- The JSON object sent to the Brevo HTTP API. -/
structure BrevoRequest where
  sender : String
  recipient : String
  replyTo : Option String
  subject : String
  textContent : String
deriving DecidableEq

/-- `sendViaBrevoAPI` request construction (src/unnamed/part_001 lines
94-100): `sender: {email: extractEmail(from)}`, `to: [{email:
extractEmail(to)}]`, `replyTo: replyTo ? {email: extractEmail(replyTo)} :
undefined`. -/
def brevoRequestOf (p : MailPayload) : BrevoRequest :=
  { sender := extractEmail p.fromAddr
    recipient := extractEmail p.toAddr
    replyTo := if p.replyTo ≠ "" then some (extractEmail p.replyTo) else none
    subject := p.subject
    textContent := p.text }

/-- The `transporter.sendMail` call of the SMTP branch (src/unnamed/
part_001 lines 182-188): each field of the payload is passed through
verbatim. -/
def smtpSendArgs (p : MailPayload) : MailPayload :=
  { toAddr := p.toAddr
    fromAddr := p.fromAddr
    replyTo := p.replyTo
    subject := p.subject
    text := p.text }

/-- A body whose every field has already been through `sanitize`. -/
def sanitizeBody (b : ContactBody) : ContactBody :=
  { name := some (sanitize b.name)
    email := some (sanitize b.email)
    subject := some (sanitize b.subject)
    message := some (sanitize b.message)
    source := some (sanitize b.source)
    website := some (sanitize b.website) }

/-- The spec's four validation rules in their fixed order (section 4.1):
each entry is (the rule fails on this submission, its error message).
`required, length >= 2 after trim` collapses to the length test since an
absent field sanitizes to the empty string. -/
def specRules (b : ContactBody) : List (Bool × String) :=
  [ (decide ((sanitize b.name).length < 2), nameErr),
    (! isEmail (sanitize b.email), emailErr),
    (decide ((sanitize b.subject).length < 2), subjectErr),
    (decide ((sanitize b.message).length < 10), messageErr) ]

/-- First failure wins: the message of the first failing rule, if any. -/
def firstFailure (rs : List (Bool × String)) : Option String :=
  (rs.find? (fun r => r.1)).map (fun r => r.2)

/-- The spec's wording of the acceptable email shape (section 4.1, rule 2):
`local@domain.tld`-shaped — a non-empty local part, a single `@`, a domain
containing a dot with non-empty pieces on both sides, and no whitespace
anywhere. -/
def specEmailShape (s : String) : Prop :=
  ∃ l d t : List Char,
    s.data = l ++ '@' :: (d ++ '.' :: t) ∧
    l ≠ [] ∧ d ≠ [] ∧ t ≠ [] ∧
    (l ++ d ++ t).all okCh = true

/-- A POST /contact request from `addr` at time `t` with no Origin header. -/
def contactReq (addr : String) (body : ContactBody) (t : Nat) : Request :=
  { origin := none, path := "/contact", addr := addr, time := t, body := body }

/-! ## Helper lemmas -/

lemma trimChars_idem (cs : List Char) : trimChars (trimChars cs) = trimChars cs := by
  unfold trimChars
  have h1 : List.dropWhile jsWs ((cs.dropWhile jsWs).rdropWhile jsWs) =
      (cs.dropWhile jsWs).rdropWhile jsWs := by
    rcases hr : (cs.dropWhile jsWs).rdropWhile jsWs with _ | ⟨a, r⟩
    · rfl
    · obtain ⟨tl, htl⟩ := List.rdropWhile_prefix jsWs (cs.dropWhile jsWs)
      rw [hr] at htl
      have hm' : cs.dropWhile jsWs = a :: (r ++ tl) := by rw [← htl]; rfl
      have hm : List.dropWhile jsWs (cs.dropWhile jsWs) = cs.dropWhile jsWs :=
        List.dropWhile_idempotent jsWs cs
      rw [hm'] at hm
      have hja : jsWs a = false := by
        by_cases hj : jsWs a = true
        · rw [List.dropWhile_cons_of_pos hj] at hm
          have hle := (List.dropWhile_suffix (l := r ++ tl) jsWs).length_le
          have hlen := congrArg List.length hm
          simp at hle hlen
          omega
        · simpa using hj
      exact List.dropWhile_cons_of_neg (by simp [hja])
  rw [h1, List.rdropWhile_idempotent]

lemma jsTrim_idem (s : String) : jsTrim (jsTrim s) = jsTrim s :=
  congrArg String.mk (trimChars_idem s.data)

lemma sanitize_sanitize (v : Option String) :
    sanitize (some (sanitize v)) = sanitize v := by
  simp only [sanitize, Option.getD_some]
  exact jsTrim_idem _

lemma empty_or_short {s : String} {n : Nat} (hn : 0 < n) :
    (s = "" ∨ s.length < n) ↔ s.length < n := by
  constructor
  · rintro (rfl | h)
    · exact hn
    · exact h
  · exact Or.inr

/-- Characterization of the /contact handler for non-honeypot submissions:
it returns exactly the first failing rule's 400, or dispatches once. -/
lemma contactHandler_eq (cfg : Config) (body : ContactBody)
    (send : MailPayload → Except String Unit)
    (hhp : sanitize body.website = "") :
    contactHandler cfg body send =
      match firstFailure (specRules body) with
      | some msg => (.badRequest msg, [])
      | none =>
          let payload := mkPayload cfg (sanitize body.name)
            (sanitize body.email) (sanitize body.subject)
            (sanitize body.source) (sanitize body.message)
          match send payload with
          | .ok _ => (.okSent, [payload])
          | .error e => (.mailError e, [payload]) := by
  simp only [contactHandler]
  rw [if_neg (by simp [hhp])]
  by_cases h1 : (sanitize body.name).length < 2
  · rw [if_pos (Or.inr h1)]
    simp [firstFailure, specRules, List.find?, h1]
  · rw [if_neg (fun h => h1 ((empty_or_short (by norm_num)).mp h))]
    by_cases h2 : isEmail (sanitize body.email) = true
    · rw [if_neg (by simp [h2])]
      by_cases h3 : (sanitize body.subject).length < 2
      · rw [if_pos (Or.inr h3)]
        simp [firstFailure, specRules, List.find?, h1, h2, h3]
      · rw [if_neg (fun h => h3 ((empty_or_short (by norm_num)).mp h))]
        by_cases h4 : (sanitize body.message).length < 10
        · rw [if_pos (Or.inr h4)]
          simp [firstFailure, specRules, List.find?, h1, h2, h3, h4]
        · rw [if_neg (fun h => h4 ((empty_or_short (by norm_num)).mp h))]
          simp only [firstFailure, specRules, List.find?]
          simp [h1, h2, h3, h4]
    · rw [if_pos (by simpa using h2)]
      simp [firstFailure, specRules, List.find?, h1, h2]

/-! ## Claims -/

/-- Claim C1: every POST /contact request whose `website` field is
non-empty after trimming gets 200 `{ok:true, skip:true}`, with no
validation outcome and no mail-send attempt, regardless of the other
fields; the honeypot check runs before any validation rule. -/
theorem c1_honeypot_short_circuit (cfg : Config) (body : ContactBody)
    (send : MailPayload → Except String Unit)
    (h : sanitize body.website ≠ "") :
    contactHandler cfg body send = (.okSkip, []) ∧
    statusOf .okSkip = 200 ∧
    jsonOf .okSkip = "\x7b\"ok\":true,\"skip\":true\x7d" := by
  refine ⟨?_, rfl, rfl⟩
  simp only [contactHandler]
  rw [if_pos h]

theorem c1_witness :
    contactHandler defaultConfig
      { website := some "http://spam.example", name := some "X" }
      (fun _ => .error "smtp down") = (.okSkip, []) ∧
    statusOf .okSkip = 200 ∧
    jsonOf .okSkip = "\x7b\"ok\":true,\"skip\":true\x7d" :=
  c1_honeypot_short_circuit _ _ _ (by decide)

/-- Claim C2: the valid submission name="Jane Doe",
email="jane@example.com", subject="Hello", message="This is a test
message." produces exactly one mail dispatch, whose replyTo is
"Jane Doe <jane@example.com>" and subject "[bmDub Contact] Hello", and
the response is 200 `{ok:true, message:"Email sent successfully."}`. -/
theorem c2_valid_submission :
    (contactHandler defaultConfig
        { name := some "Jane Doe", email := some "jane@example.com",
          subject := some "Hello", message := some "This is a test message." }
        (fun _ => .ok ())).1 = .okSent ∧
    statusOf .okSent = 200 ∧
    jsonOf .okSent = "\x7b\"ok\":true,\"message\":\"Email sent successfully.\"\x7d" ∧
    (contactHandler defaultConfig
        { name := some "Jane Doe", email := some "jane@example.com",
          subject := some "Hello", message := some "This is a test message." }
        (fun _ => .ok ())).2.map (fun p => p.replyTo) =
      ["Jane Doe <jane@example.com>"] ∧
    (contactHandler defaultConfig
        { name := some "Jane Doe", email := some "jane@example.com",
          subject := some "Hello", message := some "This is a test message." }
        (fun _ => .ok ())).2.map (fun p => p.subject) =
      ["[bmDub Contact] Hello"] := by
  decide

/-- Claim C3: for non-honeypot submissions the four rules apply in the
fixed order name, email, subject, message; the handler 400s with exactly
the first failing rule's message (and only then); a missing or short name
yields exactly `nameErr`. -/
theorem c3_first_failure_wins (cfg : Config) (body : ContactBody)
    (send : MailPayload → Except String Unit) (msg : String)
    (hhp : sanitize body.website = "") :
    ((contactHandler cfg body send).1 = .badRequest msg ↔
      firstFailure (specRules body) = some msg) ∧
    (firstFailure (specRules body) = some msg →
      contactHandler cfg body send = (.badRequest msg, []) ∧
      statusOf (.badRequest msg) = 400) ∧
    ((sanitize body.name).length < 2 →
      contactHandler cfg body send = (.badRequest nameErr, [])) := by
  have hE := contactHandler_eq cfg body send hhp
  refine ⟨?_, ?_, ?_⟩
  · cases hF : firstFailure (specRules body) with
    | some m =>
      rw [hF] at hE
      rw [hE]
      simp
    | none =>
      rw [hF] at hE
      rw [hE]
      rcases hs : send (mkPayload cfg (sanitize body.name)
        (sanitize body.email) (sanitize body.subject)
        (sanitize body.source) (sanitize body.message)) with u | e <;>
        simp [hs]
  · intro hF
    rw [hF] at hE
    exact ⟨hE, rfl⟩
  · intro hname
    have hF : firstFailure (specRules body) = some nameErr := by
      simp [firstFailure, specRules, List.find?, hname]
    rw [hF] at hE
    exact hE

theorem c3_witness :
    contactHandler defaultConfig { email := some "jane@example.com" }
      (fun _ => .ok ()) = (.badRequest nameErr, []) :=
  (c3_first_failure_wins defaultConfig { email := some "jane@example.com" }
    (fun _ => .ok ()) nameErr (by decide)).2.2 (by decide)

/-- Claim C8: the handler never attempts more than one send, and when the
backend reports a delivery failure on a validated submission the response
is the 500 mail error, never a success. -/
theorem c8_delivery_failure (cfg : Config) (body : ContactBody) (e : String)
    (send : MailPayload → Except String Unit) :
    (contactHandler cfg body send).2.length ≤ 1 ∧
    (sanitize body.website = "" → firstFailure (specRules body) = none →
      (contactHandler cfg body (fun _ => .error e)).1 = .mailError e ∧
      statusOf (contactHandler cfg body (fun _ => .error e)).1 = 500 ∧
      (contactHandler cfg body (fun _ => .error e)).1 ≠ .okSent ∧
      (contactHandler cfg body (fun _ => .error e)).2.length = 1) := by
  constructor
  · simp only [contactHandler]
    split_ifs <;> try simp
    split <;> simp
  · intro hhp hF
    have hE := contactHandler_eq cfg body (fun _ => .error e) hhp
    rw [hF] at hE
    rw [hE]
    exact ⟨rfl, rfl, by simp, rfl⟩

theorem c8_witness :
    (contactHandler defaultConfig
        { name := some "Jane Doe", email := some "jane@example.com",
          subject := some "Hello", message := some "This is a test message." }
        (fun _ => .error "SMTP connection refused")).1 =
      .mailError "SMTP connection refused" ∧
    statusOf (contactHandler defaultConfig
        { name := some "Jane Doe", email := some "jane@example.com",
          subject := some "Hello", message := some "This is a test message." }
        (fun _ => .error "SMTP connection refused")).1 = 500 ∧
    (contactHandler defaultConfig
        { name := some "Jane Doe", email := some "jane@example.com",
          subject := some "Hello", message := some "This is a test message." }
        (fun _ => .error "SMTP connection refused")).1 ≠ .okSent ∧
    (contactHandler defaultConfig
        { name := some "Jane Doe", email := some "jane@example.com",
          subject := some "Hello", message := some "This is a test message." }
        (fun _ => .error "SMTP connection refused")).2.length = 1 :=
  (c8_delivery_failure defaultConfig
    { name := some "Jane Doe", email := some "jane@example.com",
      subject := some "Hello", message := some "This is a test message." }
    "SMTP connection refused" (fun _ => .ok ())).2 (by decide) (by decide)

/-- Claim C9: startup selects exactly one backend — a configured Brevo
API key selects the HTTP API; otherwise SMTP is mandatory, and with any
SMTP credential missing (and no key) the process exits with the non-zero
code 1 before serving. -/
theorem c9_backend_selection (env : Env) :
    (truthy env.brevoApiKey = true → startup env = .started .brevoApi) ∧
    (truthy env.brevoApiKey = false → truthy env.smtpHost = true →
      truthy env.smtpUser = true → truthy env.smtpPass = true →
      startup env = .started .smtp) ∧
    (truthy env.brevoApiKey = false →
      (truthy env.smtpHost = false ∨ truthy env.smtpUser = false ∨
        truthy env.smtpPass = false) →
      startup env = .exited 1 ∧ (1 : Nat) ≠ 0) := by
  refine ⟨fun h => ?_, fun h hh hu hp => ?_,
    fun h hmiss => ⟨?_, by norm_num⟩⟩
  · simp [startup, h]
  · simp [startup, h, hh, hu, hp]
  · rcases hmiss with hm | hm | hm <;> simp [startup, h, hm]

theorem c9_witness :
    startup { smtpHost := some "smtp-relay.brevo.com" } = .exited 1 ∧
    (1 : Nat) ≠ 0 :=
  (c9_backend_selection { smtpHost := some "smtp-relay.brevo.com" }).2.2
    (by decide) (Or.inr (Or.inl (by decide)))

/-- Claim C10: every field goes through the sanitizer before any check —
the handler is invariant under pre-sanitizing the body, and a
whitespace-only `website` behaves exactly like an absent one (so it does
not trigger the honeypot short-circuit). -/
theorem c10_sanitize_before_checks (cfg : Config) (body : ContactBody)
    (send : MailPayload → Except String Unit) (w : String) :
    contactHandler cfg (sanitizeBody body) send = contactHandler cfg body send ∧
    (jsTrim w = "" →
      contactHandler cfg { body with website := some w } send =
        contactHandler cfg { body with website := none } send) := by
  constructor
  · simp only [contactHandler, sanitizeBody, sanitize_sanitize]
  · intro hw
    have hww : sanitize (some w) = sanitize (none : Option String) := by
      simp [sanitize, hw]
      rfl
    simp only [contactHandler, hww]

theorem c10_witness :
    contactHandler defaultConfig
        { ({ name := some "Jo" } : ContactBody) with website := some "   " }
        (fun _ => .ok ()) =
      contactHandler defaultConfig
        { ({ name := some "Jo" } : ContactBody) with website := none }
        (fun _ => .ok ()) :=
  (c10_sanitize_before_checks defaultConfig { name := some "Jo" }
    (fun _ => .ok ()) "   ").2 (by decide)

/-- Prefix characters all satisfying `p` are taken, and taking stops at
the first failing character. -/
lemma takeWhile_all_append {p : Char → Bool} {l : List Char}
    (rest : List Char) {x : Char}
    (hl : ∀ c ∈ l, p c = true) (hx : p x = false) :
    (l ++ x :: rest).takeWhile p = l ∧ (l ++ x :: rest).dropWhile p = x :: rest := by
  induction l with
  | nil =>
    constructor <;> simp [List.takeWhile_cons, List.dropWhile_cons, hx]
  | cons a l ih =>
    have ha : p a = true := hl a (List.mem_cons_self a l)
    have ih' := ih (fun c hc => hl c (List.mem_cons_of_mem a hc))
    constructor <;>
      simp [List.takeWhile_cons, List.dropWhile_cons, ha, ih'.1, ih'.2]

/-- The regex scan skips any prefix free of `<`. -/
lemma extractScan_append_no_lt {l rest : List Char}
    (hl : ∀ c ∈ l, c ≠ '<') :
    extractScan (l ++ rest) = extractScan rest := by
  induction l with
  | nil => rfl
  | cons a l ih =>
    rw [List.cons_append]
    simp only [extractScan]
    rw [if_neg (fun h => hl a (List.mem_cons_self a l) h.1)]
    exact ih (fun c hc => hl c (List.mem_cons_of_mem a hc))

/-- A string without `<` has no match at all. -/
lemma extractScan_none {l : List Char} (hl : ∀ c ∈ l, c ≠ '<') :
    extractScan l = none := by
  induction l with
  | nil => rfl
  | cons a t ih =>
    simp only [extractScan]
    rw [if_neg (fun h => hl a (List.mem_cons_self a t) h.1)]
    exact ih (fun c hc => hl c (List.mem_cons_of_mem a hc))

/-- At a `<` followed by a `>`-free non-empty run and then `>`, the scan
captures exactly that run. -/
lemma extractScan_bracket {addr : List Char} (hne : addr ≠ [])
    (hgt : ∀ c ∈ addr, c ≠ '>') :
    extractScan ('<' :: (addr ++ ['>'])) = some addr := by
  have htw : (addr ++ '>' :: []).takeWhile (fun d => d != '>') = addr :=
    (takeWhile_all_append [] (fun c hc => by simp [hgt c hc]) (by simp)).1
  simp only [extractScan]
  simp [htw, hne]

/-- Claim C7: the CORS gate admits a request iff it has no Origin header
or its Origin exactly (case-sensitively) matches an allow-list entry; a
rejected request is answered by the final error handler's generic 500
before any route logic runs (no route response, no state change, no mail). -/
theorem c7_cors_gate (cfg : Config) (allowList : List String)
    (send : MailPayload → Except String Unit) (st : LimiterState)
    (req : Request) :
    (corsAllows allowList req.origin = true ↔
      (req.origin = none ∨ ∃ o, req.origin = some o ∧ o ∈ allowList)) ∧
    (corsAllows allowList req.origin = false →
      handleRequest cfg allowList send st req = (.internalError, st, []) ∧
      statusOf .internalError = 500 ∧
      jsonOf .internalError = "\x7b\"error\":\"Internal server error.\"\x7d") ∧
    corsAllows (parseOrigins defaultCorsOrigins)
      (some "https://cwingo.github.io") = true ∧
    corsAllows (parseOrigins defaultCorsOrigins)
      (some "https://CWINGO.github.io") = false ∧
    corsAllows (parseOrigins defaultCorsOrigins)
      (some "https://evil.example") = false := by
  refine ⟨?_, ?_, by decide, by decide, by decide⟩
  · cases ho : req.origin with
    | none => simp [corsAllows]
    | some o => simp [corsAllows]
  · intro h
    refine ⟨?_, rfl, rfl⟩
    simp [handleRequest, h]

theorem c7_witness :
    handleRequest defaultConfig (parseOrigins defaultCorsOrigins)
        (fun _ => .ok ()) []
        { origin := some "https://evil.example", path := "/contact",
          addr := "1.2.3.4", time := 0,
          body := { name := some "Jane Doe" } } =
      (.internalError, [], []) ∧
    statusOf .internalError = 500 ∧
    jsonOf .internalError = "\x7b\"error\":\"Internal server error.\"\x7d" :=
  (c7_cors_gate defaultConfig (parseOrigins defaultCorsOrigins)
    (fun _ => .ok ()) []
    { origin := some "https://evil.example", path := "/contact",
      addr := "1.2.3.4", time := 0,
      body := { name := some "Jane Doe" } }).2.1 (by decide)

/-- Claim C5: an address of the form `"Display Name <addr>"` is reduced
to the bracketed `addr` for every field handed to the Brevo HTTP backend,
an address without angle brackets passes through `extractEmail`
unchanged, and the SMTP backend receives every payload field verbatim. -/
theorem c5_address_extraction :
    (∀ dn addr : String, (∀ c ∈ dn.data, c ≠ '<') →
      (∀ c ∈ addr.data, c ≠ '>') → addr ≠ "" →
      extractEmail (dn ++ " <" ++ addr ++ ">") = addr) ∧
    (∀ v : String, (∀ c ∈ v.data, c ≠ '<' ∧ c ≠ '>') → extractEmail v = v) ∧
    (∀ p : MailPayload,
      (brevoRequestOf p).sender = extractEmail p.fromAddr ∧
      (brevoRequestOf p).recipient = extractEmail p.toAddr ∧
      (p.replyTo ≠ "" →
        (brevoRequestOf p).replyTo = some (extractEmail p.replyTo))) ∧
    (∀ p : MailPayload, smtpSendArgs p = p) := by
  refine ⟨?_, ?_, ?_, fun p => rfl⟩
  · intro dn addr hdn haddr hne
    have hne' : addr.data ≠ [] := by
      intro h0
      exact hne (String.ext (by simp [h0]))
    unfold extractEmail
    have hdata : (dn ++ " <" ++ addr ++ ">").data =
        dn.data ++ (' ' :: '<' :: (addr.data ++ ['>'])) := by
      simp [String.data_append]
    rw [hdata, extractScan_append_no_lt hdn]
    have h1 : extractScan (' ' :: '<' :: (addr.data ++ ['>'])) =
        extractScan ('<' :: (addr.data ++ ['>'])) := by
      simp only [extractScan]
      rw [if_neg (fun h => absurd h.1 (by decide))]
    rw [h1, extractScan_bracket hne' haddr]
  · intro v hv
    unfold extractEmail
    rw [extractScan_none (fun c hc => (hv c hc).1)]
  · intro p
    refine ⟨rfl, rfl, fun h => ?_⟩
    simp [brevoRequestOf, h]

theorem c5_witness :
    extractEmail "bmDub Contact <no-reply@bmdub.app>" = "no-reply@bmdub.app" ∧
    extractEmail "no-reply@bmdub.app" = "no-reply@bmdub.app" :=
  ⟨c5_address_extraction.1 "bmDub Contact" "no-reply@bmdub.app"
      (by decide) (by decide) (by decide),
    c5_address_extraction.2.1 "no-reply@bmdub.app" (by decide)⟩

/-- The head of a non-empty `dropWhile` result fails the predicate. -/
lemma dropWhile_cons_head {p : Char → Bool} {l : List Char} {x : Char}
    {b : List Char} (h : l.dropWhile p = x :: b) : p x = false := by
  induction l with
  | nil => simp at h
  | cons a t ih =>
    by_cases hpa : p a = true
    · rw [List.dropWhile_cons_of_pos hpa] at h
      exact ih h
    · rw [List.dropWhile_cons_of_neg (by simpa using hpa)] at h
      cases h
      simpa using hpa

/-- `interiorDot` holds exactly when the list splits around a dot with
non-empty pieces on both sides. -/
lemma interiorDot_iff (b : List Char) :
    interiorDot b = true ↔ ∃ d t, b = d ++ '.' :: t ∧ d ≠ [] ∧ t ≠ [] := by
  unfold interiorDot
  rw [decide_eq_true_iff]
  constructor
  · intro hm
    rcases b with _ | ⟨h, tb⟩
    · simp at hm
    · simp only [List.tail_cons] at hm
      have htb : tb ≠ [] := by rintro rfl; simp at hm
      obtain ⟨tb2, lastC, rfl⟩ : ∃ tb2 lastC, tb = tb2 ++ [lastC] :=
        ⟨tb.dropLast, tb.getLast htb, (List.dropLast_append_getLast htb).symm⟩
      rw [List.dropLast_concat] at hm
      obtain ⟨u, v, huv⟩ := List.append_of_mem hm
      refine ⟨h :: u, v ++ [lastC], ?_, by simp, by simp⟩
      rw [huv]
      simp
  · rintro ⟨d, t, rfl, hd, ht⟩
    rcases d with _ | ⟨d0, d'⟩
    · exact absurd rfl hd
    · obtain ⟨t', lastT, rfl⟩ : ∃ t' lastT, t = t' ++ [lastT] :=
        ⟨t.dropLast, t.getLast ht, (List.dropLast_append_getLast ht).symm⟩
      simp only [List.cons_append, List.tail_cons]
      have hre : d' ++ '.' :: (t' ++ [lastT]) = (d' ++ '.' :: t') ++ [lastT] := by
        simp
      rw [hre, List.dropLast_concat]
      simp

/-- Every character of the local part of a spec-shaped address differs
from `@`. -/
lemma shape_chars_neAt {l d t : List Char}
    (hall : (l ++ d ++ t).all okCh = true) : ∀ c ∈ l, neAt c = true := by
  intro c hc
  have hok := List.all_eq_true.mp hall c
    (List.mem_append_left _ (List.mem_append_left _ hc))
  simp only [okCh, Bool.and_eq_true] at hok
  unfold neAt
  exact hok.2

/-- The email regular expression accepts exactly the spec's
`local@domain.tld` shape. -/
lemma isEmail_iff_shape (s : String) : isEmail s = true ↔ specEmailShape s := by
  unfold isEmail specEmailShape
  cases hdw : s.data.dropWhile neAt with
  | nil =>
    constructor
    · intro h
      exact absurd h (by simp)
    · rintro ⟨l, d, t, hs, hl, hd, ht, hall⟩
      exfalso
      have hsp := (takeWhile_all_append (d ++ '.' :: t)
        (shape_chars_neAt hall) (show neAt '@' = false by decide)).2
      rw [← hs, hdw] at hsp
      exact absurd hsp (by simp)
  | cons x b =>
    have hx : x = '@' := by
      have hne := dropWhile_cons_head hdw
      unfold neAt at hne
      simpa using hne
    subst hx
    have hsplit : s.data = s.data.takeWhile neAt ++ '@' :: b := by
      conv_lhs => rw [← List.takeWhile_append_dropWhile (p := neAt) (l := s.data)]
      rw [hdw]
    constructor
    · intro hAll
      obtain ⟨⟨⟨⟨h1, h2⟩, h3⟩, h4⟩, h5⟩ := by
        simpa only [Bool.and_eq_true] using hAll
      obtain ⟨d, t, hb, hd, ht⟩ := (interiorDot_iff b).mp h5
      refine ⟨s.data.takeWhile neAt, d, t, ?_, ?_, hd, ht, ?_⟩
      · conv_lhs => rw [hsplit]
        rw [hb]
      · intro h0
        rw [h0] at h1
        simp at h1
      · rw [hb] at h4
        simp only [List.all_append, Bool.and_eq_true, List.all_cons] at h4 ⊢
        exact ⟨⟨h2, h4.1⟩, h4.2.2⟩
    · rintro ⟨l, d, t, hs, hl, hd, ht, hall⟩
      have hsp := takeWhile_all_append (d ++ '.' :: t)
        (shape_chars_neAt hall) (show neAt '@' = false by decide)
      have hdw2 : s.data.dropWhile neAt = '@' :: (d ++ '.' :: t) := by
        rw [hs]
        exact hsp.2
      rw [hdw] at hdw2
      injection hdw2 with hxx hbeq
      subst hbeq
      have htk : s.data.takeWhile neAt = l := by
        rw [hs]
        exact hsp.1
      have hallc : l.all okCh = true ∧ d.all okCh = true ∧ t.all okCh = true := by
        simp only [List.all_append, Bool.and_eq_true] at hall
        exact ⟨hall.1.1, hall.1.2, hall.2⟩
      rw [htk]
      simp only [Bool.and_eq_true]
      refine ⟨⟨⟨⟨?_, hallc.1⟩, by cases d <;> rfl⟩, ?_⟩, ?_⟩
      · cases l with
        | nil => exact absurd rfl hl
        | cons a l' => rfl
      · simp only [List.all_append, List.all_cons, Bool.and_eq_true]
        exact ⟨hallc.2.1, by decide, hallc.2.2⟩
      · exact (interiorDot_iff _).mpr ⟨d, t, rfl, hd, ht⟩

/-- Claim C4: after the honeypot and name checks, the email field is
accepted iff it has the basic `local@domain.tld` shape (single `@`, an
interior dot in the domain part, no whitespace); any non-matching value
yields 400 "Invalid email address.", and `a@b.co` passes. -/
theorem c4_email_validation :
    (∀ s : String, isEmail s = true ↔ specEmailShape s) ∧
    isEmail "a@b.co" = true ∧
    (∀ (cfg : Config) (body : ContactBody)
      (send : MailPayload → Except String Unit),
      sanitize body.website = "" →
      ¬ ((sanitize body.name).length < 2) →
      isEmail (sanitize body.email) = false →
      contactHandler cfg body send = (.badRequest emailErr, [])) := by
  refine ⟨isEmail_iff_shape, by decide, ?_⟩
  intro cfg body send hhp hname hemail
  have hE := contactHandler_eq cfg body send hhp
  have hF : firstFailure (specRules body) = some emailErr := by
    simp [firstFailure, specRules, List.find?, hname, hemail]
  rw [hF] at hE
  exact hE

theorem c4_witness :
    contactHandler defaultConfig
      { name := some "Jane Doe", email := some "not-an-email",
        subject := some "Hello", message := some "This is a test message." }
      (fun _ => .ok ()) = (.badRequest emailErr, []) :=
  c4_email_validation.2.2 defaultConfig
    { name := some "Jane Doe", email := some "not-an-email",
      subject := some "Hello", message := some "This is a test message." }
    (fun _ => .ok ()) (by decide) (by decide) (by decide)

/-- A /contact request (no Origin header) passes the CORS gate and goes
through the rate limiter, then the handler. -/
lemma handleRequest_contact (cfg : Config) (allowList : List String)
    (send : MailPayload → Except String Unit) (st : LimiterState)
    (addr : String) (body : ContactBody) (t : Nat) :
    handleRequest cfg allowList send st (contactReq addr body t) =
      match limiterHit 60000 5 st addr t with
      | (.deny l r rst, st') => (.tooMany l r rst, st', [])
      | (.allow, st') =>
          ((contactHandler cfg body send).1, st',
            (contactHandler cfg body send).2) := by
  simp [handleRequest, contactReq, corsAllows]

/-- First hit of an address: a fresh window opens and is counted. -/
lemma limiterHit_fresh (addr : String) (t : Nat) :
    limiterHit 60000 5 [] addr t = (.allow, [(addr, ⟨t, 1⟩)]) := by
  norm_num [limiterHit, lookupEntry, setEntry]

/-- A hit inside the active window below the cap is allowed and counted. -/
lemma limiterHit_within (addr : String) (t0 t n : Nat)
    (hlt : t < t0 + 60000) (hn : n < 5) :
    limiterHit 60000 5 [(addr, ⟨t0, n⟩)] addr t =
      (.allow, [(addr, ⟨t0, n + 1⟩)]) := by
  simp [limiterHit, lookupEntry, setEntry, hlt, hn]

/-- A hit inside the active window at the cap is denied, with
limit/remaining/reset metadata. -/
lemma limiterHit_deny (addr : String) (t0 t : Nat) (hlt : t < t0 + 60000) :
    limiterHit 60000 5 [(addr, ⟨t0, 5⟩)] addr t =
      (.deny 5 0 (t0 + 60000), [(addr, ⟨t0, 5⟩)]) := by
  simp [limiterHit, lookupEntry, setEntry, hlt]

/-- Once the window has elapsed, a hit opens a fresh window and is
allowed again. -/
lemma limiterHit_reset (addr : String) (t0 n t : Nat)
    (hge : t0 + 60000 ≤ t) :
    limiterHit 60000 5 [(addr, ⟨t0, n⟩)] addr t =
      (.allow, [(addr, ⟨t, 1⟩)]) := by
  have hnl : ¬ t < t0 + 60000 := not_lt.mpr hge
  norm_num [limiterHit, lookupEntry, setEntry, hnl]

/-- Claim C6: the limiter caps /contact at 5 requests per address per
60-second window — of 6 requests from one address within a window the
first five reach the handler and the 6th gets the 429 with
limit/remaining/reset metadata; a request after the window elapses is
served again; requests to other paths never see the limiter. -/
theorem c6_rate_limiter (cfg : Config) (allowList : List String)
    (send : MailPayload → Except String Unit) (addr : String)
    (body : ContactBody) (t0 t1 t2 t3 t4 t5 t6 : Nat)
    (h1 : t1 < t0 + 60000) (h2 : t2 < t0 + 60000) (h3 : t3 < t0 + 60000)
    (h4 : t4 < t0 + 60000) (h5 : t5 < t0 + 60000) (h6 : t0 + 60000 ≤ t6) :
    runRequests cfg allowList send []
        [contactReq addr body t0, contactReq addr body t1,
         contactReq addr body t2, contactReq addr body t3,
         contactReq addr body t4, contactReq addr body t5] =
      ([(contactHandler cfg body send).1, (contactHandler cfg body send).1,
        (contactHandler cfg body send).1, (contactHandler cfg body send).1,
        (contactHandler cfg body send).1, .tooMany 5 0 (t0 + 60000)],
       [(addr, ⟨t0, 5⟩)]) ∧
    statusOf (.tooMany 5 0 (t0 + 60000)) = 429 ∧
    (handleRequest cfg allowList send [(addr, ⟨t0, 5⟩)]
        (contactReq addr body t6)).1 = (contactHandler cfg body send).1 ∧
    (∀ (st : LimiterState) (req : Request), req.path ≠ "/contact" →
      corsAllows allowList req.origin = true →
      (∀ l r rst,
        (handleRequest cfg allowList send st req).1 ≠ .tooMany l r rst) ∧
      (handleRequest cfg allowList send st req).2.1 = st) := by
  have e0 := limiterHit_fresh addr t0
  have e1 := limiterHit_within addr t0 t1 1 h1 (by norm_num)
  have e2 := limiterHit_within addr t0 t2 2 h2 (by norm_num)
  have e3 := limiterHit_within addr t0 t3 3 h3 (by norm_num)
  have e4 := limiterHit_within addr t0 t4 4 h4 (by norm_num)
  have e5 := limiterHit_deny addr t0 t5 h5
  have e6 := limiterHit_reset addr t0 5 t6 h6
  refine ⟨?_, rfl, ?_, ?_⟩
  · simp [runRequests, handleRequest_contact, e0, e1, e2, e3, e4, e5]
  · simp [handleRequest_contact, e6]
  · intro st req hpath hco
    constructor
    · intro l r rst
      simp only [handleRequest]
      rw [if_pos hco, if_neg hpath]
      split_ifs <;> simp
    · simp only [handleRequest]
      rw [if_pos hco, if_neg hpath]
      split_ifs <;> rfl

theorem c6_witness :
    runRequests defaultConfig [] (fun _ => .ok ()) []
        [contactReq "9.9.9.9" { name := some "Jane Doe" } 0,
         contactReq "9.9.9.9" { name := some "Jane Doe" } 10,
         contactReq "9.9.9.9" { name := some "Jane Doe" } 20,
         contactReq "9.9.9.9" { name := some "Jane Doe" } 30,
         contactReq "9.9.9.9" { name := some "Jane Doe" } 40,
         contactReq "9.9.9.9" { name := some "Jane Doe" } 50] =
      ([(contactHandler defaultConfig { name := some "Jane Doe" }
          (fun _ => .ok ())).1,
        (contactHandler defaultConfig { name := some "Jane Doe" }
          (fun _ => .ok ())).1,
        (contactHandler defaultConfig { name := some "Jane Doe" }
          (fun _ => .ok ())).1,
        (contactHandler defaultConfig { name := some "Jane Doe" }
          (fun _ => .ok ())).1,
        (contactHandler defaultConfig { name := some "Jane Doe" }
          (fun _ => .ok ())).1,
        .tooMany 5 0 (0 + 60000)],
       [("9.9.9.9", ⟨0, 5⟩)]) ∧
    statusOf (.tooMany 5 0 (0 + 60000)) = 429 ∧
    (handleRequest defaultConfig [] (fun _ => .ok ()) [("9.9.9.9", ⟨0, 5⟩)]
        (contactReq "9.9.9.9" { name := some "Jane Doe" } 60000)).1 =
      (contactHandler defaultConfig { name := some "Jane Doe" }
        (fun _ => .ok ())).1 ∧
    (∀ (st : LimiterState) (req : Request), req.path ≠ "/contact" →
      corsAllows [] req.origin = true →
      (∀ l r rst,
        (handleRequest defaultConfig [] (fun _ => .ok ()) st req).1 ≠
          .tooMany l r rst) ∧
      (handleRequest defaultConfig [] (fun _ => .ok ()) st req).2.1 = st) :=
  c6_rate_limiter defaultConfig [] (fun _ => .ok ()) "9.9.9.9"
    { name := some "Jane Doe" } 0 10 20 30 40 50 60000
    (by norm_num) (by norm_num) (by norm_num) (by norm_num) (by norm_num)
    (by norm_num)
